import Mathlib

/-!
Verification development for the card-dealing / animation engine of the
`supercoolwebsite` repository (`src/javascript/Dealer.js`,
`src/javascript/Animations.js`, `src/javascript/OverscrollDetector.js`).

Modelling conventions (shallow embedding):
* JavaScript numbers are embedded as elements of an arbitrary
  `LinearOrderedField K` (instantiated with `ℚ` in concrete witnesses and
  with `ℝ` where `Math.PI` is involved).  Arithmetic is exact; IEEE-754
  rounding and overflow are outside the model.
* `Math.cos`/`Math.sin` applied to `Vec.rad θ` are abstracted as a function
  `cs : K → K × K` sending the degree value `θ` to the pair
  `(cos (rad θ), sin (rad θ))`.  Theorems that need trigonometric facts
  assume exactly the identities real cosine/sine satisfy (evenness, oddness
  and the Pythagorean identity); rotations of vectors take the cosine and
  sine of the angle as explicit parameters `co si`.
* Division by zero in JavaScript produces a non-finite number; the only
  place the code tests finiteness (`Line.intercept`) is embedded with an
  explicit test of the denominator.
* Mutation is embedded by explicit state passing; object identity of the
  `Rect`s in `Dealer._generateNoise` is tracked by list index.
* `Math.random()` draws are an explicit stream `Nat → K`; each consumption
  site is indexed deterministically.
-/

namespace KA

variable {K : Type} [LinearOrderedField K]

/-- 2D vector, from `class Vec` in `OverscrollDetector.js`. -/
structure Vec (K : Type) where
  x : K
  y : K
deriving DecidableEq, Repr

namespace Vec

/-- `Vec.add` from the source. -/
def add (v w : Vec K) : Vec K := ⟨v.x + w.x, v.y + w.y⟩

/-- `Vec.sub` from the source. -/
def sub (v w : Vec K) : Vec K := ⟨v.x - w.x, v.y - w.y⟩

/-- `Vec.mult` with a `Vec` argument (componentwise). -/
def mult (v w : Vec K) : Vec K := ⟨v.x * w.x, v.y * w.y⟩

/-- `Vec.mult` with a scalar (`Number`) argument. -/
def smul (v : Vec K) (k : K) : Vec K := ⟨v.x * k, v.y * k⟩

/-- `Vec.div` with a `Vec` argument (componentwise). -/
def divV (v w : Vec K) : Vec K := ⟨v.x / w.x, v.y / w.y⟩

/-- `Vec.div` with a scalar (`Number`) argument. -/
def divS (v : Vec K) (k : K) : Vec K := ⟨v.x / k, v.y / k⟩

/-- `Vec.neg` from the source. -/
def neg (v : Vec K) : Vec K := ⟨-v.x, -v.y⟩

/-- `Vec.clamp`: `min (max x lo) hi`, componentwise. -/
def clamp (v lo hi : Vec K) : Vec K :=
  ⟨min (max v.x lo.x) hi.x, min (max v.y lo.y) hi.y⟩

/-- `Vec.rotate rad`, with `Math.cos rad`/`Math.sin rad` passed explicitly
as `co`/`si` (the source computes them with `Math.cos`/`Math.sin`). -/
def rotateBy (v : Vec K) (co si : K) : Vec K :=
  ⟨v.x * co - v.y * si, v.x * si + v.y * co⟩

/-- `Vec.rad`: degrees to radians, `deg * (Math.PI / 180)`; `Math.PI` is
passed explicitly as `pi`. -/
def rad (pi d : K) : K := d * (pi / 180)

/-- `Vec.deg` exactly as written in the source: `(180 * Math.PI) / rad`
(`Math.PI` passed explicitly as `pi`).  Note the source divides the
constant `180·π` by the argument. -/
def deg (pi r : K) : K := (180 * pi) / r

end Vec

/-- Helper used by `Line.rotate`: `p.sub(center).rotate(angle).add(center)`,
with the cosine/sine of the angle passed as `co`/`si`. -/
def rotP (center : Vec K) (co si : K) (p : Vec K) : Vec K :=
  ((p.sub center).rotateBy co si).add center

/-- Implicit line between two points, from `class Line` in `Dealer.js`.
All derived fields (`a`, `b`, `c`, `domMin`, `domMax`) are stored, as in
the source. -/
structure Line (K : Type) where
  p1 : Vec K
  p2 : Vec K
  a : K
  b : K
  c : K
  domMin : Vec K
  domMax : Vec K
deriving DecidableEq, Repr

namespace Line

/-- `Line.epsilon = 0.001`. -/
def epsilon : K := 1 / 1000

/-- `Line._reset`: recompute every field from the two endpoints (also the
body of the constructor). -/
def reset (p1 p2 : Vec K) : Line K :=
  { p1 := p1
    p2 := p2
    a := p1.y - p2.y
    b := p2.x - p1.x
    c := p1.x * p2.y - p2.x * p1.y
    domMin := ⟨min p1.x p2.x, min p1.y p2.y⟩
    domMax := ⟨max p1.x p2.x, max p1.y p2.y⟩ }

/-- `Line.rotate (center, angle)`, cosine/sine of the angle passed as
`co`/`si`. -/
def rotateBy (l : Line K) (center : Vec K) (co si : K) : Line K :=
  reset (rotP center co si l.p1) (rotP center co si l.p2)

/-- `Line.translate`. -/
def translate (l : Line K) (amount : Vec K) : Line K :=
  reset (l.p1.add amount) (l.p2.add amount)

/-- `Line.implicit`: apply `a·x + b·y + c` to the point. -/
def implicit (l : Line K) (p : Vec K) : K :=
  l.a * p.x + l.b * p.y + l.c

/-- Cramer's-rule solution point computed by `Line.intercept` (the `x` and
`y` locals of the source). -/
def cramer (l o : Line K) : Vec K :=
  ⟨(l.b * o.c - o.b * l.c) / (l.a * o.b - l.b * o.a),
   (l.a * o.c - o.a * l.c) / (l.b * o.a - l.a * o.b)⟩

/-- The bounding-box test of `Line.intercept` (both segments' boxes,
expanded by `epsilon`, strict inequalities as in the source). -/
def inDom (l o : Line K) (v : Vec K) : Prop :=
  l.domMin.x - epsilon < v.x ∧ v.x < l.domMax.x + epsilon ∧
  o.domMin.x - epsilon < v.x ∧ v.x < o.domMax.x + epsilon ∧
  l.domMin.y - epsilon < v.y ∧ v.y < l.domMax.y + epsilon ∧
  o.domMin.y - epsilon < v.y ∧ v.y < o.domMax.y + epsilon

instance (l o : Line K) (v : Vec K) : Decidable (inDom l o v) := by
  unfold inDom; infer_instance

/-- `Line.intercept`.  In the source, a zero determinant makes the
divisions produce a non-finite number and `isFinite` fails; the embedding
tests the determinant directly.  (Both divisions share the same
determinant up to sign.) -/
def intercept (l o : Line K) : Option (Vec K) :=
  if l.a * o.b - l.b * o.a = 0 then none
  else if inDom l o (cramer l o) then some (cramer l o) else none

end Line

/-- Oriented rectangle, from `class Rect` in `Dealer.js`.  `boarders` is
the source's array `[top, bottom, left, right]`. -/
structure Rect (K : Type) where
  center : Vec K
  size : Vec K
  boarders : List (Line K)
deriving DecidableEq, Repr

/-- The `Rect` constructor: four boundary lines built from the axis-aligned
corners. -/
def mkRect (center size : Vec K) : Rect K :=
  let radius := size.divS 2
  { center := center
    size := size
    boarders :=
      [Line.reset (center.add ⟨-radius.x, -radius.y⟩) (center.add ⟨radius.x, -radius.y⟩),
       Line.reset (center.add ⟨-radius.x, radius.y⟩) (center.add ⟨radius.x, radius.y⟩),
       Line.reset (center.add ⟨-radius.x, radius.y⟩) (center.add ⟨-radius.x, -radius.y⟩),
       Line.reset (center.add ⟨radius.x, radius.y⟩) (center.add ⟨radius.x, -radius.y⟩)] }

namespace Rect

/-- `Rect.corners`: the endpoints of `boarders[0]` and `boarders[1]`. -/
def corners (r : Rect K) : List (Vec K) :=
  match r.boarders with
  | [t, b, _, _] => [t.p1, t.p2, b.p1, b.p2]
  | _ => []

/-- `Rect.translate`. -/
def translate (r : Rect K) (amount : Vec K) : Rect K :=
  { r with
    center := r.center.add amount
    boarders := r.boarders.map (·.translate amount) }

/-- `Rect.rotate angle`, cosine/sine of the angle passed as `co`/`si`;
every border is rotated about the rectangle's center. -/
def rotateBy (r : Rect K) (co si : K) : Rect K :=
  { r with boarders := r.boarders.map (·.rotateBy r.center co si) }

/-- `Rect.containsPoint`: sign test on the two pairs of opposite borders. -/
def containsPoint (r : Rect K) (p : Vec K) : Bool :=
  match r.boarders with
  | [t, b, l, rr] =>
      decide (t.implicit p * b.implicit p ≤ 0) &&
      decide (l.implicit p * rr.implicit p ≤ 0)
  | _ => false

/-- `Rect.overlaps`: corner containment both ways, in source order. -/
def overlaps (r rect : Rect K) : Bool :=
  rect.corners.any r.containsPoint || r.corners.any rect.containsPoint

/-- The general branch of `Rect.allIntercepts`: all pairwise border
intersections, in source iteration order. -/
def allInterceptsDistinct (r rect : Rect K) : List (Vec K) :=
  r.boarders.flatMap (fun b1 => rect.boarders.filterMap (fun b2 => b1.intercept b2))

/-- `Rect.allIntercepts`: the source first tests `rect === this` (object
identity); the embedding receives the result of that identity test as
`same`. -/
def allIntercepts (same : Bool) (r rect : Rect K) : List (Vec K) :=
  if same then r.corners else allInterceptsDistinct r rect

end Rect

/-- `class AnimParams` (`Animations.js`), as used by the `Dealer`: in every
`Dealer` call site all three fields are non-null. -/
structure AnimParams (K : Type) where
  position : Vec K
  size : Vec K
  rotation : K
deriving DecidableEq, Repr

/-- Default values used to embed JavaScript array indexing (`arr[i]`)
through `List.getD`; every access in the algorithm is in bounds, so the
defaults are never observed. -/
def dflRect : Rect K := mkRect ⟨0, 0⟩ ⟨0, 0⟩

/-- Default `AnimParams` for out-of-bounds embedding, never observed. -/
def dflParams : AnimParams K := ⟨⟨0, 0⟩, ⟨0, 0⟩, 0⟩

/-- One entry of the `intercepts` list of `Dealer._generateNoise`:
`rect1`/`rect2` are object references in the source and are tracked here by
index into `cardRects` (`j = none` denotes the deal-area rectangle).
`oldPoints` starts as `null` in the source; it is only ever read after
being written within the same trial, so it is embedded with `[]`. -/
structure IRec (K : Type) where
  i : Nat
  j : Option Nat
  points : List (Vec K)
  oldPoints : List (Vec K)
deriving DecidableEq, Repr

/-- The configuration of `Dealer._generateNoise` (fields of the `Dealer`
plus the jitter arguments and the trigonometric oracle `cs`, see the file
header). -/
structure NoiseCfg (K : Type) where
  cardSize : Vec K
  dealPos : Vec K
  dealSize : Vec K
  transJitter : K
  rotJitter : K
  cs : K → K × K

/-- The mutable state of `Dealer._generateNoise`: the card rectangles, the
shared intercept records, and the `endParams` array. -/
structure NoiseState (K : Type) where
  rects : List (Rect K)
  recs : List (IRec K)
  params : List (AnimParams K)
deriving DecidableEq, Repr

/-- The deal-area rectangle: `new Rect (dealPos.add (dealSize.div (2)), dealSize)`. -/
def dealRect (cfg : NoiseCfg K) : Rect K :=
  mkRect (cfg.dealPos.add (cfg.dealSize.divS 2)) cfg.dealSize

/-- Recompute the intersection points of one record from the current
rectangles (`intercept.rect1.allIntercepts (intercept.rect2)`); the
identity test `rect === this` inside `allIntercepts` is `i = j` on
indices, and the deal rectangle is never identical to a card. -/
def recFresh (rects : List (Rect K)) (dealR : Rect K) (i : Nat) (j : Option Nat) :
    List (Vec K) :=
  match j with
  | none => Rect.allIntercepts false (rects.getD i dflRect) dealR
  | some jj => Rect.allIntercepts (i == jj) (rects.getD i dflRect) (rects.getD jj dflRect)

/-- The initial `intercepts` list built by `_generateNoise` (outer loop over
`i`, pushing the deal-area record then the records for `j = i … n-1`). -/
def initRecs (rects : List (Rect K)) (dealR : Rect K) : List (IRec K) :=
  (List.range rects.length).flatMap fun i =>
    ⟨i, none, recFresh rects dealR i none, []⟩ ::
      (List.range' i (rects.length - i)).map fun j =>
        ⟨i, some j, recFresh rects dealR i (some j), []⟩

/-- The state at the start of `_generateNoise`: card rectangles built from
`endParams` (`new Rect (param.position.add (cardSize.div (2)), cardSize)`)
and the freshly computed intercept records. -/
def initNoise (cfg : NoiseCfg K) (params0 : List (AnimParams K)) : NoiseState K :=
  let rects := params0.map fun param =>
    mkRect (param.position.add (cfg.cardSize.divS 2)) cfg.cardSize
  { rects := rects
    recs := initRecs rects (dealRect cfg)
    params := params0 }

/-- The proposed translation of one jitter trial (lines 440–443 of
`Dealer.js`): a random vector with components in `(-1, 1)` (the raw draws
`r1`, `r2` are `Math.random()` outputs), multiplied by
`cardSize.x + cardSize.y * 0.5 * transJitter` (the source's operator
precedence), then clamped between `dealPos - center` and
`dealPos + dealSize - center`. -/
def proposedTrans (cardSize dealPos dealSize center : Vec K) (tj r1 r2 : K) : Vec K :=
  ((Vec.mk (r1 * 2 - 1) (r2 * 2 - 1)).smul
      (cardSize.x + cardSize.y * (1 / 2) * tj)).clamp
    (dealPos.sub center) ((dealPos.add dealSize).sub center)

/-- The coverage test of one trial (`badNoise` in the source): some cached
point lies inside the deal area and no card other than the two rectangles
that produced it contains it. -/
def badNoiseB (dealR : Rect K) (rects : List (Rect K)) (recs : List (IRec K)) : Bool :=
  recs.any fun rec => rec.points.any fun pt =>
    dealR.containsPoint pt &&
      !((List.range rects.length).any fun k =>
        (!(k == rec.i)) && (!(some k == rec.j)) && (rects.getD k dflRect).containsPoint pt)

/-- Does a record belong to `interceptsByCard[v]`? -/
def touches (v : Nat) (rec : IRec K) : Bool :=
  rec.i == v || rec.j == some v

/-- The rectangles after the trial move of the victim
(`cardRects[victim].translate (trans).rotate (Vec.rad (rot))`). -/
def movedRects (cfg : NoiseCfg K) (v : Nat) (r1 r2 r3 : K) (s : NoiseState K) :
    List (Rect K) :=
  let center := (s.rects.getD v dflRect).center
  let trans := proposedTrans cfg.cardSize cfg.dealPos cfg.dealSize center cfg.transJitter r1 r2
  let rot := (r3 * 2 - 1) * cfg.rotJitter
  s.rects.set v (((s.rects.getD v dflRect).translate trans).rotateBy
    (cfg.cs rot).1 (cfg.cs rot).2)

/-- The intercept records after the update loop of one trial.  The record
of the victim with itself appears twice in `interceptsByCard[victim]`, so
its `oldPoints` is overwritten by the freshly computed points (both fields
end up fresh); every other record touching the victim keeps its pre-trial
points in `oldPoints`. -/
def updatedRecs (cfg : NoiseCfg K) (v : Nat) (rects1 : List (Rect K))
    (recs : List (IRec K)) : List (IRec K) :=
  recs.map fun rec =>
    if rec.i == v && rec.j == some v then
      let fresh := recFresh rects1 (dealRect cfg) rec.i rec.j
      ⟨rec.i, rec.j, fresh, fresh⟩
    else if touches v rec then
      ⟨rec.i, rec.j, recFresh rects1 (dealRect cfg) rec.i rec.j, rec.points⟩
    else rec

/-- The `badNoise` value of one trial: the coverage test evaluated on the
moved rectangles and updated records. -/
def noiseStepBad (cfg : NoiseCfg K) (v : Nat) (r1 r2 r3 : K) (s : NoiseState K) : Bool :=
  badNoiseB (dealRect cfg) (movedRects cfg v r1 r2 r3 s)
    (updatedRecs cfg v (movedRects cfg v r1 r2 r3 s) s.recs)

/-- One iteration of the jitter loop body (lines 439–491 of `Dealer.js`)
for victim `v` with raw random draws `r1 r2 r3`: move the victim, update
its records, test coverage, then either roll back (rotate by the negated
angle, translate by the negated vector, restore `points` from `oldPoints`)
or commit the accumulated translation/rotation into `endParams`. -/
def noiseStep (cfg : NoiseCfg K) (v : Nat) (r1 r2 r3 : K) (s : NoiseState K) :
    NoiseState K :=
  let center := (s.rects.getD v dflRect).center
  let trans := proposedTrans cfg.cardSize cfg.dealPos cfg.dealSize center cfg.transJitter r1 r2
  let rot := (r3 * 2 - 1) * cfg.rotJitter
  let rects1 := movedRects cfg v r1 r2 r3 s
  let recs1 := updatedRecs cfg v rects1 s.recs
  if noiseStepBad cfg v r1 r2 r3 s then
    { rects := rects1.set v (((rects1.getD v dflRect).rotateBy
        (cfg.cs (-rot)).1 (cfg.cs (-rot)).2).translate trans.neg)
      recs := recs1.map fun rec =>
        if touches v rec then ⟨rec.i, rec.j, rec.oldPoints, rec.oldPoints⟩ else rec
      params := s.params }
  else
    { rects := rects1
      recs := recs1
      params := s.params.set v
        ⟨(s.params.getD v dflParams).position.add trans,
         (s.params.getD v dflParams).size,
         (s.params.getD v dflParams).rotation + rot⟩ }

/-- The sequence of states of the jitter loop: step `k` (iteration
`k / count`, victim `k % count`) consumes the raw draws `rnd (3k)`,
`rnd (3k+1)`, `rnd (3k+2)`. -/
def noiseStates (cfg : NoiseCfg K) (count : Nat) (rnd : Nat → K)
    (s0 : NoiseState K) : Nat → NoiseState K
  | 0 => s0
  | k + 1 =>
      noiseStep cfg (k % count) (rnd (3 * k)) (rnd (3 * k + 1)) (rnd (3 * k + 2))
        (noiseStates cfg count rnd s0 k)

/-- `Dealer._generateNoise`: run `iters * count` trials from the freshly
initialised state and return the final `endParams`. -/
def generateNoise (cfg : NoiseCfg K) (iters : Nat) (rnd : Nat → K)
    (params0 : List (AnimParams K)) : List (AnimParams K) :=
  (noiseStates cfg params0.length rnd (initNoise cfg params0)
    (iters * params0.length)).params

section Dealer

variable [FloorRing K]

/-- `minGrid.x`: `Math.ceil (dealSize.x / cardSize.x)`. -/
def minGridX (dealSize cardSize : Vec K) : ℤ := ⌈dealSize.x / cardSize.x⌉

/-- `minGrid.y`: `Math.ceil (dealSize.y / cardSize.y)`. -/
def minGridY (dealSize cardSize : Vec K) : ℤ := ⌈dealSize.y / cardSize.y⌉

/-- Swap two list entries, the embedding of the destructuring swap
`[a[i], a[j]] = [a[j], a[i]]`; under the reachable random draws both
indices are always in bounds. -/
def listSwap {α : Type} (l : List α) (i j : Nat) : List α :=
  match l.get? i, l.get? j with
  | some a, some b => (l.set i b).set j a
  | _, _ => l

/-- The Fisher–Yates loop of `createAnimation`
(`for i = grid-1; i > 0; i--`), descending; the draw for index `i` is
`rnd i` and `j = Math.floor (draw * (i + 1))`. -/
def fisherYates {α : Type} (rnd : Nat → K) : Nat → List α → List α
  | 0, l => l
  | m + 1, l =>
      fisherYates rnd m
        (listSwap l (m + 1) (Int.toNat ⌊rnd (m + 1) * ((m + 1 : Nat) + 1 : K)⌋))

/-- The seeded `AnimParams` for grid cell `(i, j)` (lines 331–334):
position `dealPos - margin + (cardSize - margin) * (i, j)`. -/
def seedParam (cardSize dealPos margin : Vec K) (i j : Nat) : AnimParams K :=
  ⟨(dealPos.sub margin).add ((cardSize.sub margin).mult ⟨(i : K), (j : K)⟩),
   cardSize, 0⟩

/-- The randomly placed extra card `i` (lines 337–341): position
`dealPos + (dealSize - cardSize) * Math.random()` (scalar multiply — both
components share one draw). -/
def extraParam (cardSize dealPos dealSize : Vec K) (r : K) : AnimParams K :=
  ⟨dealPos.add ((dealSize.sub cardSize).smul r), cardSize, 0⟩

/-- The `endParams` computed by `Dealer.createAnimation` (lines 311–351):
the covering-grid check, the seeded grid (slot `minGrid.y * i + j` holds
cell `(i, j)`, embedded by index decomposition), the random extras, the
jitter loop and the Fisher–Yates permutation of the seeded prefix.  The
surrounding construction of D3 `CardAnim` nodes manipulates DOM handles
and is outside the model; the thrown `Error` is embedded as `Except.error`.
Random draws: `extraRnd i` for extra slot `i`, `noiseRnd` for the jitter
loop, `shuffleRnd` for the permutation. -/
def createAnimationEndParams (cardSize dealPos dealSize : Vec K) (count : Nat)
    (transJitter rotJitter : K) (iters : Nat) (cs : K → K × K)
    (extraRnd noiseRnd shuffleRnd : Nat → K) :
    Except String (List (AnimParams K)) :=
  let mgx := minGridX dealSize cardSize
  let mgy := minGridY dealSize cardSize
  if mgx * mgy > (count : ℤ) then
    .error "Dealer.createAnimation: Could not cover the dealer area with the cards provided"
  else
    let minGridV : Vec K := ⟨(mgx : K), (mgy : K)⟩
    let margin := ((minGridV.mult cardSize).sub dealSize).divV (minGridV.add ⟨1, 1⟩)
    let g := (mgx * mgy).toNat
    let mgyN := mgy.toNat
    let params0 := (List.range count).map fun idx =>
      if idx < g then seedParam cardSize dealPos margin (idx / mgyN) (idx % mgyN)
      else extraParam cardSize dealPos dealSize (extraRnd idx)
    let cfg : NoiseCfg K :=
      ⟨cardSize, dealPos, dealSize, transJitter, rotJitter, cs⟩
    let noised := generateNoise cfg iters noiseRnd params0
    .ok (fisherYates shuffleRnd (g - 1) noised)

end Dealer

/-- The arguments of the `Anim` constructor carry `AnimParams` either as a
single object (`Sum.inl`) or as an array (`Sum.inr`); `Option.none` is
JavaScript `null`.  The payload type is abstract. -/
abbrev ParamsArg (α : Type) : Type := α ⊕ List α

/-- `Array.isArray`. -/
def isArr {α : Type} : ParamsArg α → Bool
  | .inl _ => false
  | .inr _ => true

/-- The fields of an `Anim` node involved in the constructor's checks and
parameter normalisation (`selection`, `startParams`, `endParams`); `ease`,
`duration`, `dependsOn` and `callback` are stored verbatim by the
constructor and play no part in any claim about it. -/
structure AnimCore (α : Type) where
  selSize : Nat
  startParams : Option (List α)
  endParams : Option (List α)
deriving DecidableEq, Repr

/-- The `arrayParams` local of the `Anim` constructor. -/
def arrayParams {α : Type} (sp ep : Option (ParamsArg α)) : Bool :=
  match sp with
  | none =>
      match ep with
      | none => false
      | some e => isArr e
  | some s => isArr s

/-- Normalisation of one parameter argument (`slice` for arrays, `fill`
for single objects). -/
def normParams {α : Type} (selSize : Nat) : ParamsArg α → List α
  | .inl a => List.replicate selSize a
  | .inr l => l

/-- The `Anim` constructor (`Animations.js` lines 75–110): throws if
`startParams` and `endParams` are not both arrays or both single objects,
then throws if a supplied array's length differs from the selection size,
otherwise stores the normalised parameter arrays. -/
def mkAnim {α : Type} (selSize : Nat) (sp ep : Option (ParamsArg α)) :
    Except String (AnimCore α) :=
  match sp, ep with
  | some s, some e =>
      if isArr e ≠ isArr s then
        .error "ParallelAnimation.constructor: startParams and endParams must both be an array, or both objects"
      else if arrayParams sp ep &&
          (decide (selSize ≠ (normParams selSize s).length) ||
           decide (selSize ≠ (normParams selSize e).length)) then
        .error "ParallelAnimation.constructor: Assertion 'selection.size () == startParams.length == endParams.length' failed"
      else
        .ok ⟨selSize, some (normParams selSize s), some (normParams selSize e)⟩
  | some s, none =>
      if arrayParams sp ep && decide (selSize ≠ (normParams selSize s).length) then
        .error "ParallelAnimation.constructor: Assertion 'selection.size () == startParams.length == endParams.length' failed"
      else .ok ⟨selSize, some (normParams selSize s), none⟩
  | none, some e =>
      if arrayParams sp ep && decide (selSize ≠ (normParams selSize e).length) then
        .error "ParallelAnimation.constructor: Assertion 'selection.size () == startParams.length == endParams.length' failed"
      else .ok ⟨selSize, none, some (normParams selSize e)⟩
  | none, none => .ok ⟨selSize, none, none⟩

section Scheduler

/-- Idealised event-time semantics of the promise-based scheduler
(`Anim.animate`/`Anim._animate`): nodes are numbered so that every entry
of `deps i` is smaller than `i` (a topological numbering of the dependency
DAG built through `dependsOn`).  A node's transition starts when
`Promise.all` of its predecessors resolves — the maximum of their
completion times (`0` with no predecessor) — and completes `dur i` later
(the D3 transition / `setTimeout` duration).  The `filter (· < i)` guard
makes the recursion total; under the DAG hypothesis it keeps every
dependency. -/
def endTime (dur : Nat → K) (deps : Nat → List Nat) : Nat → K
  | i =>
      (((deps i).filter (· < i)).attach.map fun j =>
          endTime dur deps j.1).foldr max 0 + dur i
decreasing_by
  have := List.of_mem_filter j.2
  simpa using this

/-- The instant the node's own transition starts: when all predecessors'
completion signals have fired. -/
def startTime (dur : Nat → K) (deps : Nat → List Nat) (i : Nat) : K :=
  (((deps i).filter (· < i)).attach.map fun j => endTime dur deps j.1).foldr max 0

/-- `A.followedBy(B)`: pushes `A` onto `B.dependsOn` (`anim.dependsOn.push
(this)`), leaving every other node's dependencies unchanged. -/
def followedBy (deps : Nat → List Nat) (a b : Nat) : Nat → List Nat :=
  fun k => if k = b then deps k ++ [a] else deps k

end Scheduler

/-- The coverage property tested by the jitter loop's validity check: every
cached intersection point that lies inside the deal area is contained in at
least one card rectangle other than the two that produced it. -/
def Coverage (dealR : Rect K) (rects : List (Rect K)) (recs : List (IRec K)) : Prop :=
  ∀ rec ∈ recs, ∀ pt ∈ rec.points, dealR.containsPoint pt = true →
    ∃ k, k < rects.length ∧ k ≠ rec.i ∧ some k ≠ rec.j ∧
      (rects.getD k dflRect).containsPoint pt = true

instance (dealR : Rect K) (rects : List (Rect K)) (recs : List (IRec K)) :
    Decidable (Coverage dealR rects recs) := by
  unfold Coverage
  have : ∀ (rec : IRec K) (pt : Vec K),
      Decidable (∃ k, k < rects.length ∧ k ≠ rec.i ∧ some k ≠ rec.j ∧
        (rects.getD k dflRect).containsPoint pt = true) := fun rec pt =>
    decidable_of_iff
      (∃ k ∈ List.range rects.length, k ≠ rec.i ∧ some k ≠ rec.j ∧
        (rects.getD k dflRect).containsPoint pt = true)
      (by simp [List.mem_range, and_assoc])
  exact List.decidableBAll _ recs

/-- `Coverage` for a noise-loop state. -/
def CoverageState (cfg : NoiseCfg K) (s : NoiseState K) : Prop :=
  Coverage (dealRect cfg) s.rects s.recs

instance (cfg : NoiseCfg K) (s : NoiseState K) : Decidable (CoverageState cfg s) := by
  unfold CoverageState; infer_instance

/-- The identities satisfied by the trigonometric oracle
`cs θ = (cos (rad θ), sin (rad θ))`: cosine is even, sine is odd, and the
point lies on the unit circle. -/
def CsGood (cs : K → K × K) : Prop :=
  ∀ x : K, (cs (-x)).1 = (cs x).1 ∧ (cs (-x)).2 = -(cs x).2 ∧
    (cs x).1 ^ 2 + (cs x).2 ^ 2 = 1

/-- A `Line` whose stored coefficients and bounding box are the ones
`_reset` derives from its endpoints; every line the source ever constructs
satisfies this. -/
def LineWF (l : Line K) : Prop := l = Line.reset l.p1 l.p2

instance (l : Line K) : Decidable (LineWF l) := by unfold LineWF; infer_instance

/-- A `Rect` all of whose borders are well-formed lines. -/
def RectWF (r : Rect K) : Prop := ∀ l ∈ r.boarders, LineWF l

instance (r : Rect K) : Decidable (RectWF r) := List.decidableBAll _ r.boarders

/-- Modelled from the spec: the reference point-in-oriented-rectangle test
("brute-force projection onto both axes") for the rectangle with the given
center, size and rotation (cosine/sine `co`/`si`): rotate the point back
into the rectangle's frame and compare each coordinate offset with half
the size. -/
def refContains (center size : Vec K) (co si : K) (p : Vec K) : Prop :=
  |(rotP center co (-si) p).x - center.x| ≤ size.x / 2 ∧
  |(rotP center co (-si) p).y - center.y| ≤ size.y / 2

instance (center size : Vec K) (co si : K) (p : Vec K) :
    Decidable (refContains center size co si p) := by
  unfold refContains; infer_instance

/-- The sign function used to state the claim's sign test
(`sign(x) ∈ {-1, 0, 1}`). -/
def sgn (x : K) : K := if x < 0 then -1 else if x = 0 then 0 else 1

/-! ### Algebraic helper lemmas -/

theorem rotateBy_rotateBy_neg (v : Vec K) (co si : K) (h : co ^ 2 + si ^ 2 = 1) :
    (v.rotateBy co si).rotateBy co (-si) = v := by
  obtain ⟨x, y⟩ := v
  simp only [Vec.rotateBy, Vec.mk.injEq]
  constructor
  · linear_combination x * h
  · linear_combination y * h

theorem rotP_rotP_neg (c : Vec K) (co si : K) (h : co ^ 2 + si ^ 2 = 1) (p : Vec K) :
    rotP c co (-si) (rotP c co si p) = p := by
  obtain ⟨px, py⟩ := p
  obtain ⟨cx, cy⟩ := c
  simp only [rotP, Vec.rotateBy, Vec.add, Vec.sub, Vec.mk.injEq]
  constructor
  · linear_combination (px - cx) * h
  · linear_combination (py - cy) * h

theorem add_add_neg (v t : Vec K) : (v.add t).add t.neg = v := by
  obtain ⟨x, y⟩ := v
  simp [Vec.add, Vec.neg]

theorem lineWF_reset (p q : Vec K) : LineWF (Line.reset p q) := rfl

theorem lineWF_translate (l : Line K) (t : Vec K) : LineWF (l.translate t) :=
  lineWF_reset _ _

theorem lineWF_rotateBy (l : Line K) (c : Vec K) (co si : K) :
    LineWF (l.rotateBy c co si) :=
  lineWF_reset _ _

theorem rectWF_mkRect (c s : Vec K) : RectWF (mkRect c s) := by
  intro l hl
  simp only [mkRect, List.mem_cons, List.not_mem_nil, or_false] at hl
  rcases hl with rfl | rfl | rfl | rfl <;> exact lineWF_reset _ _

theorem rectWF_translate (r : Rect K) (t : Vec K) : RectWF (r.translate t) := by
  intro l hl
  simp only [Rect.translate, List.mem_map] at hl
  obtain ⟨l0, _, rfl⟩ := hl
  exact lineWF_translate l0 t

theorem rectWF_rotateBy (r : Rect K) (co si : K) : RectWF (r.rotateBy co si) := by
  intro l hl
  simp only [Rect.rotateBy, List.mem_map] at hl
  obtain ⟨l0, _, rfl⟩ := hl
  exact lineWF_rotateBy l0 r.center co si

/-- Exact inverse of one trial move at the level of a single rectangle:
translating by `t` and rotating by an angle with cosine `co` and sine
`si`, then rotating by the negated angle (same cosine, negated sine) and
translating by the negated vector, restores the rectangle exactly. -/
theorem rect_roundtrip (r : Rect K) (hr : RectWF r) (t : Vec K) (co si : K)
    (h : co ^ 2 + si ^ 2 = 1) :
    (((r.translate t).rotateBy co si).rotateBy co (-si)).translate t.neg = r := by
  obtain ⟨c, s, bs⟩ := r
  have key : ∀ l ∈ bs,
      (Line.translate
        (Line.rotateBy (Line.rotateBy (Line.translate l t) (c.add t) co si)
          (c.add t) co (-si)) t.neg) = l := by
    intro l hl
    have hwf := hr l hl
    simp only [Line.translate, Line.rotateBy]
    conv_rhs => rw [hwf]
    simp only [Line.reset]
    rw [rotP_rotP_neg _ _ _ h, rotP_rotP_neg _ _ _ h, add_add_neg, add_add_neg]
  simp only [Rect.translate, Rect.rotateBy, Rect.mk.injEq, List.map_map]
  refine ⟨add_add_neg c t, trivial, ?_⟩
  refine (List.map_congr_left ?_).trans (List.map_id bs)
  intro l hl
  simpa using key l hl

/-- C4.  After a rejected jitter trial is rolled back — the source applies
`rotate (-Vec.rad (rot))` then `translate (trans.neg ())` — the victim
`Rect` (its center, and its borders, hence its orientation) exactly equals
its pre-trial value.  `co`/`si` are the cosine/sine of the trial angle
`Vec.rad rot`; the rollback's angle `-Vec.rad rot` has cosine `co` and
sine `-si`.  Arithmetic is exact (the model's numbers form a field);
IEEE-754 rounding is outside the model. -/
theorem claim_C4 (r : Rect K) (t : Vec K) (co si : K) (hr : RectWF r)
    (h : co ^ 2 + si ^ 2 = 1) :
    (((r.translate t).rotateBy co si).rotateBy co (-si)).translate t.neg = r :=
  rect_roundtrip r hr t co si h

/-- Witness for C4 at a concrete rational rectangle, translation `(1,0)`
and the 3-4-5 rotation `(co, si) = (3/5, 4/5)`. -/
theorem claim_C4_witness :
    ((((mkRect (K := ℚ) ⟨0, 0⟩ ⟨2, 2⟩).translate ⟨1, 0⟩).rotateBy (3/5) (4/5)).rotateBy
        (3/5) (-(4/5))).translate (Vec.neg ⟨1, 0⟩) = mkRect ⟨0, 0⟩ ⟨2, 2⟩ :=
  claim_C4 (mkRect ⟨0, 0⟩ ⟨2, 2⟩) ⟨1, 0⟩ (3/5) (4/5)
    (rectWF_mkRect ⟨0, 0⟩ ⟨2, 2⟩) (by norm_num)

/-- C10.  Evaluating the code at the failing input: `Vec.deg (Vec.rad 90)`
returns `360`, not `90` — the source computes `(180 * Math.PI) / rad`
instead of `rad * 180 / Math.PI`, contradicting its own documentation
("The same angle in degrees"), so `Vec.deg` is not the inverse of
`Vec.rad`. -/
theorem claim_C10 :
    Vec.deg Real.pi (Vec.rad Real.pi 90) = 360 ∧
      Vec.deg Real.pi (Vec.rad Real.pi 90) ≠ 90 := by
  have hpi : Real.pi ≠ 0 := Real.pi_ne_zero
  have h : Vec.deg Real.pi (Vec.rad Real.pi 90) = 360 := by
    unfold Vec.deg Vec.rad
    field_simp
    ring
  exact ⟨h, by rw [h]; norm_num⟩

/-- The implicit form of a segment's line is the 2D cross product of the
segment direction with the offset of the queried point. -/
theorem implicit_eq (p1 p2 q : Vec K) :
    (Line.reset p1 p2).implicit q
      = (p2.sub p1).x * (q.sub p1).y - (p2.sub p1).y * (q.sub p1).x := by
  obtain ⟨ax, ay⟩ := p1
  obtain ⟨bx, by'⟩ := p2
  obtain ⟨qx, qy⟩ := q
  simp only [Line.reset, Line.implicit, Vec.sub]
  ring

/-- Rotation scales the 2D cross product by `co² + si²`. -/
theorem rot_cross (u v : Vec K) (co si : K) :
    (u.rotateBy co si).x * (v.rotateBy co si).y
        - (u.rotateBy co si).y * (v.rotateBy co si).x
      = (co ^ 2 + si ^ 2) * (u.x * v.y - u.y * v.x) := by
  obtain ⟨ux, uy⟩ := u
  obtain ⟨vx, vy⟩ := v
  simp only [Vec.rotateBy]
  ring

theorem rotP_sub_rotP (c : Vec K) (co si : K) (x y : Vec K) :
    (rotP c co si x).sub (rotP c co si y) = (x.sub y).rotateBy co si := by
  obtain ⟨xx, xy⟩ := x
  obtain ⟨yx, yy⟩ := y
  obtain ⟨cx, cy⟩ := c
  simp only [rotP, Vec.rotateBy, Vec.add, Vec.sub, Vec.mk.injEq]
  constructor <;> ring

theorem sub_rotP_eq (c : Vec K) (co si : K) (h : co ^ 2 + si ^ 2 = 1) (q p : Vec K) :
    q.sub (rotP c co si p) = ((rotP c co (-si) q).sub p).rotateBy co si := by
  obtain ⟨qx, qy⟩ := q
  obtain ⟨px, py⟩ := p
  obtain ⟨cx, cy⟩ := c
  simp only [rotP, Vec.rotateBy, Vec.add, Vec.sub, Vec.mk.injEq]
  constructor
  · linear_combination (cx - qx) * h
  · linear_combination (cy - qy) * h

/-- Rotating a segment about `c` and evaluating its implicit form at `q`
equals evaluating the original segment's implicit form at `q` rotated
back. -/
theorem implicit_rotLine (c : Vec K) (co si : K) (h : co ^ 2 + si ^ 2 = 1)
    (p1 p2 q : Vec K) :
    (Line.reset (rotP c co si p1) (rotP c co si p2)).implicit q
      = (Line.reset p1 p2).implicit (rotP c co (-si) q) := by
  have hq : q = rotP c co si (rotP c co (-si) q) := by
    have := rotP_rotP_neg c co (-si) (by linear_combination h) q
    simpa using this.symm
  calc (Line.reset (rotP c co si p1) (rotP c co si p2)).implicit q
      = ((rotP c co si p2).sub (rotP c co si p1)).x * (q.sub (rotP c co si p1)).y
        - ((rotP c co si p2).sub (rotP c co si p1)).y * (q.sub (rotP c co si p1)).x :=
        implicit_eq _ _ _
    _ = ((p2.sub p1).rotateBy co si).x * (((rotP c co (-si) q).sub p1).rotateBy co si).y
        - ((p2.sub p1).rotateBy co si).y * (((rotP c co (-si) q).sub p1).rotateBy co si).x := by
        rw [rotP_sub_rotP, sub_rotP_eq c co si h]
    _ = (co ^ 2 + si ^ 2) * ((p2.sub p1).x * ((rotP c co (-si) q).sub p1).y
        - (p2.sub p1).y * ((rotP c co (-si) q).sub p1).x) := rot_cross _ _ _ _
    _ = (Line.reset p1 p2).implicit (rotP c co (-si) q) := by
        rw [h, one_mul, implicit_eq]

/-- `containsPoint` on a rotated axis-built rectangle equals
`containsPoint` on the unrotated rectangle at the point rotated back. -/
theorem containsPoint_rotateBy (c s : Vec K) (co si : K) (h : co ^ 2 + si ^ 2 = 1)
    (p : Vec K) :
    ((mkRect c s).rotateBy co si).containsPoint p
      = (mkRect c s).containsPoint (rotP c co (-si) p) := by
  simp only [mkRect, Rect.rotateBy, Rect.containsPoint, List.map_cons, List.map_nil,
    Line.rotateBy]
  rw [implicit_rotLine c co si h, implicit_rotLine c co si h,
    implicit_rotLine c co si h, implicit_rotLine c co si h]
  rfl

set_option maxHeartbeats 1000000 in
/-- Characterisation of `containsPoint` on an unrotated rectangle of
positive size. -/
theorem containsPoint_mkRect_iff (c s u : Vec K) (hx : 0 < s.x) (hy : 0 < s.y) :
    (mkRect c s).containsPoint u = true ↔
      |u.x - c.x| ≤ s.x / 2 ∧ |u.y - c.y| ≤ s.y / 2 := by
  obtain ⟨cx, cy⟩ := c
  obtain ⟨sx, sy⟩ := s
  obtain ⟨ux, uy⟩ := u
  simp only at hx hy
  simp only [mkRect, Rect.containsPoint, Line.reset, Line.implicit, Vec.add, Vec.divS,
    Bool.and_eq_true, decide_eq_true_eq]
  rw [abs_le, abs_le]
  constructor
  · rintro ⟨h1, h2⟩
    have hyP : (uy - cy + sy / 2) * (uy - cy - sy / 2) ≤ 0 := by
      nlinarith [h1, mul_pos hx hx]
    have hxP : (ux - cx + sx / 2) * (ux - cx - sx / 2) ≤ 0 := by
      nlinarith [h2, mul_pos hy hy]
    refine ⟨⟨?_, ?_⟩, ?_, ?_⟩ <;> nlinarith [hxP, hyP, hx, hy]
  · rintro ⟨⟨h1, h2⟩, h3, h4⟩
    have hyP : (uy - cy + sy / 2) * (uy - cy - sy / 2) ≤ 0 := by nlinarith [h3, h4]
    have hxP : (ux - cx + sx / 2) * (ux - cx - sx / 2) ≤ 0 := by nlinarith [h1, h2]
    constructor <;>
      nlinarith [hxP, hyP, mul_pos hx hx, mul_pos hy hy]

/-- `sign(a)·sign(b) ≤ 0` is the same test as `a·b ≤ 0`. -/
theorem sgn_mul_nonpos (a b : K) : sgn a * sgn b ≤ 0 ↔ a * b ≤ 0 := by
  rcases lt_trichotomy a 0 with ha | ha | ha
  · rcases lt_trichotomy b 0 with hb | hb | hb
    · simp only [sgn, if_pos ha, if_pos hb]
      exact iff_of_false (by norm_num) (not_le.mpr (mul_pos_of_neg_of_neg ha hb))
    · subst hb
      simp [sgn]
    · simp only [sgn, if_pos ha, if_neg (not_lt_of_gt hb), if_neg hb.ne']
      exact iff_of_true (by norm_num) (le_of_lt (mul_neg_of_neg_of_pos ha hb))
  · subst ha
    simp [sgn]
  · rcases lt_trichotomy b 0 with hb | hb | hb
    · simp only [sgn, if_neg (not_lt_of_gt ha), if_neg ha.ne', if_pos hb]
      exact iff_of_true (by norm_num) (le_of_lt (mul_neg_of_pos_of_neg ha hb))
    · subst hb
      simp [sgn]
    · simp only [sgn, if_neg (not_lt_of_gt ha), if_neg ha.ne',
        if_neg (not_lt_of_gt hb), if_neg hb.ne']
      exact iff_of_false (by norm_num) (not_le.mpr (mul_pos ha hb))

/-- C6 (amended: the rectangle's size components must be positive; the
original claim fails for degenerate sizes, see the counterexample).  For a
rectangle of positive size, built at `center`/`size` and rotated by any
angle (cosine `co`, sine `si` on the unit circle), `containsPoint` agrees
with the reference point-in-oriented-rectangle test, and for every
four-bordered rectangle `containsPoint` equals the sign test
`sign(top)·sign(bottom) ≤ 0 ∧ sign(left)·sign(right) ≤ 0` on the implicit
boundary forms. -/
theorem claim_C6_amended (c s : Vec K) (co si : K) (p : Vec K)
    (h : co ^ 2 + si ^ 2 = 1) (hx : 0 < s.x) (hy : 0 < s.y) :
    (((mkRect c s).rotateBy co si).containsPoint p = true ↔ refContains c s co si p)
    ∧ ∀ (r : Rect K) (t b l rr : Line K), r.boarders = [t, b, l, rr] →
        (r.containsPoint p = true ↔
          (sgn (t.implicit p) * sgn (b.implicit p) ≤ 0 ∧
           sgn (l.implicit p) * sgn (rr.implicit p) ≤ 0)) := by
  constructor
  · rw [containsPoint_rotateBy c s co si h p,
      containsPoint_mkRect_iff _ _ _ hx hy]
    exact Iff.rfl
  · intro r t b l rr hb
    rw [sgn_mul_nonpos, sgn_mul_nonpos]
    simp [Rect.containsPoint, hb]

/-- Counterexample for C6 as stated: for the degenerate `Rect` with center
`(0,0)`, size `(0,2)` and rotation `0` (cosine `1`, sine `0` — a genuine
rotation parameter pair), the point `(0,5)` is reported contained by
`containsPoint` (the top/bottom implicit forms vanish identically), but
the reference point-in-oriented-rectangle test rejects it. -/
theorem claim_C6_cex :
    ((mkRect (K := ℚ) ⟨0, 0⟩ ⟨0, 2⟩).rotateBy 1 0).containsPoint ⟨0, 5⟩ = true ∧
    ¬ refContains (K := ℚ) ⟨0, 0⟩ ⟨0, 2⟩ 1 0 ⟨0, 5⟩ ∧
    (1 : ℚ) ^ 2 + 0 ^ 2 = 1 := by
  refine ⟨?_, ?_, by norm_num⟩
  · norm_num [mkRect, Rect.rotateBy, Rect.containsPoint, Line.rotateBy, Line.reset,
      Line.implicit, rotP, Vec.rotateBy, Vec.add, Vec.sub, Vec.divS]
  · norm_num [refContains, rotP, Vec.rotateBy, Vec.add, Vec.sub]

/-- Witness for C6: the amended theorem applied at the rational point
`(1,0)` and the 3-4-5 rotation of the `2×2` square at the origin. -/
theorem claim_C6_witness :
    ((mkRect (K := ℚ) ⟨0, 0⟩ ⟨2, 2⟩).rotateBy (3/5) (4/5)).containsPoint ⟨1, 0⟩ = true := by
  refine ((claim_C6_amended (K := ℚ) ⟨0, 0⟩ ⟨2, 2⟩ (3/5) (4/5) ⟨1, 0⟩
    (by norm_num) (by norm_num) (by norm_num)).1).mpr ?_
  norm_num [refContains, rotP, Vec.rotateBy, Vec.add, Vec.sub, abs_le]

/-- C7.  `Line.intercept` returns `null` exactly when the determinant of
the 2×2 system vanishes (the source's non-finite-division test) or the
Cramer's-rule solution lies outside either segment's bounding box expanded
by `epsilon`; when it returns a point, that point satisfies both implicit
line equations and is the unique such point. -/
theorem claim_C7 (l o : Line K) :
    (Line.intercept l o = none ↔
      l.a * o.b - l.b * o.a = 0 ∨ ¬ Line.inDom l o (Line.cramer l o))
    ∧ ∀ v, Line.intercept l o = some v →
        l.implicit v = 0 ∧ o.implicit v = 0 ∧
          ∀ w, l.implicit w = 0 → o.implicit w = 0 → w = v := by
  constructor
  · unfold Line.intercept
    split_ifs with h1 h2
    · simp [h1]
    · simp [h1, h2]
    · simp [h1, h2]
  · intro v hv
    unfold Line.intercept at hv
    split_ifs at hv with h1 h2
    have hveq : v = Line.cramer l o := by
      injection hv with hv'
      exact hv'.symm
    subst hveq
    have h1' : l.a * o.b - l.b * o.a ≠ 0 := h1
    have h2' : l.b * o.a - l.a * o.b ≠ 0 := fun hc => h1' (by linarith)
    refine ⟨?_, ?_, ?_⟩
    · unfold Line.implicit Line.cramer
      field_simp
      ring
    · unfold Line.implicit Line.cramer
      field_simp
      ring
    · intro w hw1 hw2
      unfold Line.implicit at hw1 hw2
      obtain ⟨wx, wy⟩ := w
      unfold Line.cramer
      simp only [Vec.mk.injEq]
      constructor
      · rw [eq_div_iff h1']
        linear_combination o.b * hw1 - l.b * hw2
      · rw [eq_div_iff h2']
        linear_combination o.a * hw1 - l.a * hw2

/-- Witness for C7: the two diagonals of the `[0,2]²` square intersect at
`(1,1)`, and the returned point satisfies both implicit equations. -/
theorem claim_C7_witness :
    (Line.reset (K := ℚ) ⟨0, 0⟩ ⟨2, 2⟩).implicit ⟨1, 1⟩ = 0 ∧
    (Line.reset (K := ℚ) ⟨0, 2⟩ ⟨2, 0⟩).implicit ⟨1, 1⟩ = 0 := by
  have hv : (Line.reset (K := ℚ) ⟨0, 0⟩ ⟨2, 2⟩).intercept (Line.reset ⟨0, 2⟩ ⟨2, 0⟩)
      = some ⟨1, 1⟩ := by
    norm_num [Line.intercept, Line.cramer, Line.inDom, Line.reset, Line.epsilon,
      Vec.mk.injEq, max_def, min_def]
  obtain ⟨h1, h2, -⟩ :=
    (claim_C7 (Line.reset (K := ℚ) ⟨0, 0⟩ ⟨2, 2⟩) (Line.reset ⟨0, 2⟩ ⟨2, 0⟩)).2 ⟨1, 1⟩ hv
  exact ⟨h1, h2⟩

/-- C9.  `Rect.overlaps` is exactly the corner-containment test: it is
true iff some corner of either rectangle is contained in the other (per
`containsPoint`), and consequently it is false whenever no corner of
either rectangle lies inside the other — even if the rectangles' edges
cross (see the witness for such a crossing configuration). -/
theorem claim_C9 (R1 R2 : Rect K) :
    (R1.overlaps R2 = true ↔
      (∃ p ∈ R2.corners, R1.containsPoint p = true) ∨
      (∃ p ∈ R1.corners, R2.containsPoint p = true))
    ∧ ((∀ p ∈ R2.corners, R1.containsPoint p = false) →
       (∀ p ∈ R1.corners, R2.containsPoint p = false) →
       R1.overlaps R2 = false) := by
  constructor
  · simp [Rect.overlaps, List.any_eq_true]
  · intro h1 h2
    simp only [Rect.overlaps, Bool.or_eq_false_iff, List.any_eq_false]
    exact ⟨fun p hp => by simp [h1 p hp], fun p hp => by simp [h2 p hp]⟩

set_option maxHeartbeats 2000000 in
/-- Witness for C9: the `10×2` and `2×10` rectangles centered at the
origin form a crossing plus-sign — their borders intersect
(`allIntercepts` is nonempty) yet no corner of either lies inside the
other, and `overlaps` returns `false`. -/
theorem claim_C9_witness :
    Rect.overlaps (mkRect (K := ℚ) ⟨0, 0⟩ ⟨10, 2⟩) (mkRect ⟨0, 0⟩ ⟨2, 10⟩) = false ∧
    Rect.allInterceptsDistinct (mkRect (K := ℚ) ⟨0, 0⟩ ⟨10, 2⟩) (mkRect ⟨0, 0⟩ ⟨2, 10⟩)
      ≠ [] := by
  constructor
  · refine (claim_C9 (mkRect (K := ℚ) ⟨0, 0⟩ ⟨10, 2⟩) (mkRect ⟨0, 0⟩ ⟨2, 10⟩)).2 ?_ ?_
    all_goals
      intro p hp
      obtain ⟨px, py⟩ := p
      norm_num [mkRect, Rect.corners, Vec.add, Vec.divS, Vec.mk.injEq] at hp
      rcases hp with ⟨rfl, rfl⟩ | ⟨rfl, rfl⟩ | ⟨rfl, rfl⟩ | ⟨rfl, rfl⟩
      all_goals
        norm_num [mkRect, Rect.containsPoint, Line.reset, Line.implicit, Vec.add,
          Vec.divS]
  · norm_num [Rect.allInterceptsDistinct, mkRect, Line.intercept, Line.cramer,
      Line.inDom, Line.reset, Line.epsilon, Vec.add, Vec.divS, max_def, min_def]
    simp

/-- C3.  Evaluating the jitter-translation proposal at a failing input
(cards `100×100`, `transJitter = 0.1`, deal area `[0,1000]²`, raw draws
`0.9`): the source multiplies the unit-random vector by
`cardSize.x + cardSize.y * 0.5 * transJitter = 105` (operator precedence —
the parentheses of the documented `0.5·(w+h)·transJitter = 10` are
missing), so the proposed translation is `(84, 84)`, far beyond the
claimed bound `±10`.  Moreover the clamp keeps only the card's *center*
inside the deal area: with the victim centered at `(10,10)` and draws `0`
the clamped translation is `(-10,-10)`, after which the card's left edge
`0 - 100/2 = -50` lies outside the deal area. -/
theorem claim_C3 :
    proposedTrans (K := ℚ) ⟨100, 100⟩ ⟨0, 0⟩ ⟨1000, 1000⟩ ⟨500, 500⟩ (1/10) (9/10) (9/10)
        = ⟨84, 84⟩ ∧
      ¬((84 : ℚ) ≤ (1/2) * (100 + 100) * (1/10)) ∧
      proposedTrans (K := ℚ) ⟨100, 100⟩ ⟨0, 0⟩ ⟨1000, 1000⟩ ⟨10, 10⟩ (1/10) 0 0
        = ⟨-10, -10⟩ ∧
      (10 : ℚ) + (proposedTrans (K := ℚ) ⟨100, 100⟩ ⟨0, 0⟩ ⟨1000, 1000⟩ ⟨10, 10⟩
        (1/10) 0 0).x - 100 / 2 < 0 := by
  refine ⟨?_, by norm_num, ?_, ?_⟩ <;>
    norm_num [proposedTrans, Vec.clamp, Vec.smul, Vec.add, Vec.sub, Vec.mk.injEq,
      max_def, min_def]

/-! ### C8: scheduler ordering -/

theorem le_foldr_max (l : List K) (x : K) (hx : x ∈ l) : x ≤ l.foldr max 0 := by
  induction l with
  | nil => cases hx
  | cons a t ih =>
    rcases List.mem_cons.mp hx with rfl | h
    · exact le_max_left _ _
    · exact le_trans (ih h) (le_max_right _ _)

theorem endTime_le_startTime_of_mem (dur : Nat → K) (deps : Nat → List Nat)
    (i j : Nat) (hj : j ∈ deps i) (hlt : j < i) :
    endTime dur deps j ≤ startTime dur deps i := by
  apply le_foldr_max
  have hjf : j ∈ (deps i).filter (· < i) := List.mem_filter.mpr ⟨hj, by simpa using hlt⟩
  exact List.mem_map.mpr ⟨⟨j, hjf⟩, List.mem_attach _ _, rfl⟩

/-- C8.  In the idealised event-time semantics of the promise scheduler
(`Anim.animate` resolves a node only after `Promise.all` of its
predecessors), with nodes topologically numbered (`hd`): every node's
transition start time is at least every predecessor's completion time; in
particular after `A.followedBy(B)` (which pushes `A` onto `B.dependsOn`),
`B`'s start time is at least `A`'s completion time; and a node's
completion time is its start time plus its own duration. -/
theorem claim_C8 (dur : Nat → K) (deps : Nat → List Nat)
    (hd : ∀ i, ∀ j ∈ deps i, j < i) :
    (∀ i, ∀ j ∈ deps i, endTime dur deps j ≤ startTime dur deps i)
    ∧ (∀ a b, a < b →
        endTime dur (followedBy deps a b) a ≤ startTime dur (followedBy deps a b) b)
    ∧ ∀ i, endTime dur deps i = startTime dur deps i + dur i := by
  refine ⟨fun i j hj => endTime_le_startTime_of_mem dur deps i j hj (hd i j hj),
    ?_, ?_⟩
  · intro a b hab
    apply endTime_le_startTime_of_mem _ _ b a _ hab
    simp [followedBy]
  · intro i
    rw [endTime, startTime]

/-- Witness for C8: two unit-duration nodes with `0.followedBy(1)`. -/
theorem claim_C8_witness :
    endTime (K := ℚ) (fun _ => 1) (followedBy (fun _ => []) 0 1) 0
      ≤ startTime (fun _ => 1) (followedBy (fun _ => []) 0 1) 1 :=
  (claim_C8 (fun _ => 1) (fun _ => []) (by simp)).2.1 0 1 (by norm_num)

/-! ### C5: createAnimation produces one placement per card -/

theorem length_listSwap {α : Type} (l : List α) (i j : Nat) :
    (listSwap l i j).length = l.length := by
  unfold listSwap
  rcases h1 : l.get? i with _ | a <;> rcases h2 : l.get? j with _ | b <;> simp

theorem length_fisherYates {α : Type} [FloorRing K] (rnd : Nat → K) (m : Nat)
    (l : List α) : (fisherYates rnd m l).length = l.length := by
  induction m generalizing l with
  | zero => rfl
  | succ n ih => rw [fisherYates, ih, length_listSwap]

theorem length_noiseStep_params (cfg : NoiseCfg K) (v : Nat) (r1 r2 r3 : K)
    (s : NoiseState K) :
    (noiseStep cfg v r1 r2 r3 s).params.length = s.params.length := by
  unfold noiseStep
  split <;> simp

theorem length_noiseStates_params (cfg : NoiseCfg K) (count : Nat) (rnd : Nat → K)
    (s0 : NoiseState K) (k : Nat) :
    (noiseStates cfg count rnd s0 k).params.length = s0.params.length := by
  induction k with
  | zero => rfl
  | succ n ih => rw [noiseStates, length_noiseStep_params, ih]

theorem length_generateNoise (cfg : NoiseCfg K) (iters : Nat) (rnd : Nat → K)
    (p0 : List (AnimParams K)) : (generateNoise cfg iters rnd p0).length = p0.length := by
  unfold generateNoise
  rw [length_noiseStates_params]
  rfl

/-- C5.  For every configuration with
`minGrid.x * minGrid.y ≤ cardCount`, `createAnimation`'s placement
computation succeeds (no throw) and returns exactly `cardCount` final
`AnimParams`, one per card, for every outcome of the random streams.
The computation is a total function of the model, so termination is by
construction, and each position is an element of the (finite-valued)
field `K`. -/
theorem claim_C5 [FloorRing K] (cardSize dealPos dealSize : Vec K) (count : Nat)
    (tj rj : K) (iters : Nat) (cs : K → K × K) (er nr sr : Nat → K)
    (h : minGridX dealSize cardSize * minGridY dealSize cardSize ≤ (count : ℤ)) :
    ∃ l, createAnimationEndParams cardSize dealPos dealSize count tj rj iters cs er nr sr
        = .ok l ∧ l.length = count := by
  unfold createAnimationEndParams
  rw [if_neg (not_lt.mpr h)]
  refine ⟨_, rfl, ?_⟩
  rw [length_fisherYates, length_generateNoise]
  simp

/-- Witness for C5: one `4×4` card covering a `2×2` deal area
(`minGrid = (1,1)`), one jitter iteration. -/
theorem claim_C5_witness :
    minGridX (⟨2, 2⟩ : Vec ℚ) ⟨4, 4⟩ * minGridY (⟨2, 2⟩ : Vec ℚ) ⟨4, 4⟩ ≤ ((1 : Nat) : ℤ)
    ∧ ∃ l, createAnimationEndParams (K := ℚ) ⟨4, 4⟩ ⟨0, 0⟩ ⟨2, 2⟩ 1 0 0 1
        (fun _ => (1, 0)) (fun _ => 0) (fun _ => 1/2) (fun _ => 0) = .ok l ∧
        l.length = 1 := by
  have hm : minGridX (⟨2, 2⟩ : Vec ℚ) ⟨4, 4⟩ * minGridY (⟨2, 2⟩ : Vec ℚ) ⟨4, 4⟩
      ≤ ((1 : Nat) : ℤ) := by
    have hceil : (⌈(1 : ℚ) / 2⌉ : ℤ) = 1 := by
      rw [Int.ceil_eq_iff]
      norm_num
    norm_num [minGridX, minGridY, hceil]
  exact ⟨hm, claim_C5 ⟨4, 4⟩ ⟨0, 0⟩ ⟨2, 2⟩ 1 0 0 1 (fun _ => (1, 0))
    (fun _ => 0) (fun _ => 1/2) (fun _ => 0) hm⟩

/-! ### C2: the fatal error conditions -/

/-- `true` iff the `Except` value is a success (no throw). -/
def exceptOk {ε α : Type} : Except ε α → Bool
  | .ok _ => true
  | .error _ => false

/-- Counterexample for C2 as stated: the `Anim` constructor also throws
when `startParams` is an array and `endParams` a single object — here the
only supplied per-item array has exactly the selection's item count
(length 1 = selection size 1), so neither of the claim's two conditions
holds, yet the constructor throws the array/object-mismatch error. -/
theorem claim_C2_cex :
    mkAnim (α := Nat) 1 (some (Sum.inr [5])) (some (Sum.inl 7))
      = Except.error "ParallelAnimation.constructor: startParams and endParams must both be an array, or both objects"
    ∧ ([5] : List Nat).length = 1 :=
  ⟨rfl, rfl⟩

/-- C2 (amended: the `Anim` constructor has a further throw condition —
mismatched array-ness of `startParams`/`endParams` — in addition to the
two conditions of the claim).  `createAnimation`'s placement computation
throws exactly when `minGrid.x * minGrid.y` exceeds the card count, and
the `Anim` constructor throws exactly when the supplied parameters are
not both arrays or both single objects, or when they are arrays and a
supplied array's length differs from the element group's item count.
Both errors are values of the `Except` embedding, returned before any
state is produced. -/
theorem claim_C2_amended [FloorRing K] :
    (∀ (cardSize dealPos dealSize : Vec K) (count : Nat) (tj rj : K) (iters : Nat)
        (cs : K → K × K) (er nr sr : Nat → K),
      exceptOk (createAnimationEndParams cardSize dealPos dealSize count tj rj iters
          cs er nr sr) = false
        ↔ minGridX dealSize cardSize * minGridY dealSize cardSize > (count : ℤ))
    ∧ ∀ (α : Type) (selSize : Nat) (sp ep : Option (ParamsArg α)),
        exceptOk (mkAnim selSize sp ep) = false ↔
          ((∃ s e, sp = some s ∧ ep = some e ∧ isArr e ≠ isArr s) ∨
           (arrayParams sp ep = true ∧
             ((∃ l1, sp = some (Sum.inr l1) ∧ selSize ≠ l1.length) ∨
              (∃ l2, ep = some (Sum.inr l2) ∧ selSize ≠ l2.length)))) := by
  constructor
  · intro cardSize dealPos dealSize count tj rj iters cs er nr sr
    unfold createAnimationEndParams
    dsimp only
    split_ifs with hc <;> simp [exceptOk, hc]
  · intro α selSize sp ep
    rcases sp with _ | s <;> rcases ep with _ | e
    · simp [mkAnim, exceptOk, arrayParams]
    · rcases e with e | l2
      · simp [mkAnim, exceptOk, arrayParams, isArr]
      · by_cases hlen : selSize = l2.length <;>
          simp [mkAnim, exceptOk, arrayParams, isArr, normParams, hlen,
            Sum.inr.injEq, Sum.inl.injEq, Option.some.injEq]
    · rcases s with s | l1
      · simp [mkAnim, exceptOk, arrayParams, isArr]
      · by_cases hlen : selSize = l1.length <;>
          simp [mkAnim, exceptOk, arrayParams, isArr, normParams, hlen,
            Sum.inr.injEq, Sum.inl.injEq, Option.some.injEq]
    · rcases s with s | l1 <;> rcases e with e | l2
      · simp [mkAnim, exceptOk, arrayParams, isArr]
      · simp [mkAnim, exceptOk, arrayParams, isArr]
      · simp [mkAnim, exceptOk, arrayParams, isArr]
      · by_cases h1 : selSize = l1.length
        · by_cases h2 : selSize = l2.length
          · have h12 : l1.length = l2.length := by rw [← h1, ← h2]
            simp [mkAnim, exceptOk, arrayParams, isArr, normParams, h1, h2, h12,
              Sum.inr.injEq, Sum.inl.injEq, Option.some.injEq]
          · have h12 : ¬l1.length = l2.length := by
              rw [← h1]
              exact h2
            simp [mkAnim, exceptOk, arrayParams, isArr, normParams, h1, h2, h12,
              Sum.inr.injEq, Sum.inl.injEq, Option.some.injEq]
        · simp [mkAnim, exceptOk, arrayParams, isArr, normParams, h1,
            Sum.inr.injEq, Sum.inl.injEq, Option.some.injEq]

/-! ### C1: the coverage invariant of the jitter loop -/

theorem set_getD_self {α : Type} (l : List α) (i : Nat) (d : α) :
    l.set i (l.getD i d) = l := by
  induction l generalizing i with
  | nil => rfl
  | cons a t ih =>
    cases i with
    | zero => rfl
    | succ n => simpa [List.set] using ih n

theorem getD_set_self {α : Type} (l : List α) (i : Nat) (x d : α)
    (h : i < l.length) : (l.set i x).getD i d = x := by
  induction l generalizing i with
  | nil => simp at h
  | cons a t ih =>
    cases i with
    | zero => rfl
    | succ n => simpa [List.set] using ih n (by simpa using h)

theorem set_of_length_le {α : Type} (l : List α) (i : Nat) (x : α)
    (h : l.length ≤ i) : l.set i x = l := by
  induction l generalizing i with
  | nil => rfl
  | cons a t ih =>
    cases i with
    | zero => simp at h
    | succ n => simpa [List.set] using ih n (by simpa using h)

theorem getD_mem {α : Type} (l : List α) (i : Nat) (d : α) (h : i < l.length) :
    l.getD i d ∈ l := by
  induction l generalizing i with
  | nil => simp at h
  | cons a t ih =>
    cases i with
    | zero => exact List.mem_cons_self a t
    | succ n => exact List.mem_cons_of_mem a (ih n (by simpa using h))

theorem rectWF_of_mem_set (l : List (Rect K)) (hl : ∀ r ∈ l, RectWF r) (i : Nat)
    (x : Rect K) (hx : RectWF x) : ∀ r ∈ l.set i x, RectWF r := by
  intro r hr
  rcases List.mem_or_eq_of_mem_set hr with h | rfl
  · exact hl r h
  · exact hx

theorem noiseStep_rects_WF (cfg : NoiseCfg K) (v : Nat) (r1 r2 r3 : K)
    (s : NoiseState K) (h : ∀ r ∈ s.rects, RectWF r) :
    ∀ r ∈ (noiseStep cfg v r1 r2 r3 s).rects, RectWF r := by
  by_cases hbad : noiseStepBad cfg v r1 r2 r3 s = true
  · simp only [noiseStep, movedRects, hbad, if_true]
    exact rectWF_of_mem_set _
      (rectWF_of_mem_set _ h _ _ (rectWF_rotateBy _ _ _)) _ _ (rectWF_translate _ _)
  · simp only [noiseStep, movedRects, hbad, if_false]
    exact rectWF_of_mem_set _ h _ _ (rectWF_rotateBy _ _ _)

/-- Rejected trials change neither the layout (`endParams`) nor — thanks
to the exact inverse transform — the card rectangles. -/
theorem noiseStep_rollback (cfg : NoiseCfg K) (v : Nat) (r1 r2 r3 : K)
    (s : NoiseState K) (hcs : CsGood cfg.cs) (hwf : ∀ r ∈ s.rects, RectWF r)
    (hbad : noiseStepBad cfg v r1 r2 r3 s = true) :
    (noiseStep cfg v r1 r2 r3 s).params = s.params ∧
    (noiseStep cfg v r1 r2 r3 s).rects = s.rects := by
  constructor
  · simp only [noiseStep, hbad, if_true]
  · simp only [noiseStep, movedRects, hbad, if_true]
    obtain ⟨hco, hsi, hpy⟩ := hcs ((r3 * 2 - 1) * cfg.rotJitter)
    rw [hco, hsi]
    by_cases hv : v < s.rects.length
    · rw [getD_set_self _ _ _ _ hv, List.set_set,
        rect_roundtrip _ (hwf _ (getD_mem _ _ _ hv)) _ _ _ hpy,
        set_getD_self]
    · rw [set_of_length_le _ _ _ (by simpa using not_lt.mp hv),
        set_of_length_le _ _ _ (by simpa using not_lt.mp hv)]

/-- The trial's validity test is exactly the coverage property of the
cached intersection points against the moved rectangles. -/
theorem badNoiseB_false_iff (dealR : Rect K) (rects : List (Rect K))
    (recs : List (IRec K)) :
    badNoiseB dealR rects recs = false ↔ Coverage dealR rects recs := by
  constructor
  · intro h rec hrec pt hpt hin
    unfold badNoiseB at h
    rw [List.any_eq_false] at h
    have h2 := h rec hrec
    rw [Bool.not_eq_true, List.any_eq_false] at h2
    have h3 := h2 pt hpt
    rw [Bool.not_eq_true, Bool.and_eq_false_iff] at h3
    rcases h3 with hc | hb
    · rw [hin] at hc
      exact absurd hc (by simp)
    · rw [Bool.not_eq_false'] at hb
      rw [List.any_eq_true] at hb
      obtain ⟨k, hk, hkp⟩ := hb
      rw [List.mem_range] at hk
      rw [Bool.and_eq_true, Bool.and_eq_true] at hkp
      obtain ⟨⟨hk1, hk2⟩, hk3⟩ := hkp
      refine ⟨k, hk, ?_, ?_, hk3⟩
      · simpa using hk1
      · simpa using hk2
  · intro h
    unfold badNoiseB
    rw [List.any_eq_false]
    intro rec hrec
    rw [Bool.not_eq_true, List.any_eq_false]
    intro pt hpt
    rw [Bool.not_eq_true]
    by_cases hin : dealR.containsPoint pt = true
    · obtain ⟨k, hk, hki, hkj, hkc⟩ := h rec hrec pt hpt hin
      have hb : ((List.range rects.length).any fun k =>
          (!(k == rec.i)) && (!(some k == rec.j)) &&
            (rects.getD k dflRect).containsPoint pt) = true := by
        rw [List.any_eq_true]
        refine ⟨k, List.mem_range.mpr hk, ?_⟩
        rw [Bool.and_eq_true, Bool.and_eq_true]
        exact ⟨⟨by simpa using hki, by simpa using hkj⟩, hkc⟩
      rw [Bool.and_eq_false_iff]
      right
      rw [Bool.not_eq_false']
      exact hb
    · rw [Bool.not_eq_true] at hin
      simp [hin]

/-- A committed trial yields a state satisfying the coverage property:
the guard tested exactly the moved rectangles and updated records that the
committed state keeps. -/
theorem noiseStep_commit_coverage (cfg : NoiseCfg K) (v : Nat) (r1 r2 r3 : K)
    (s : NoiseState K) (hbad : noiseStepBad cfg v r1 r2 r3 s = false) :
    CoverageState cfg (noiseStep cfg v r1 r2 r3 s) := by
  have hb' : noiseStepBad cfg v r1 r2 r3 s ≠ true := by simp [hbad]
  unfold CoverageState
  simp only [noiseStep, if_neg hb']
  unfold noiseStepBad at hbad
  exact (badNoiseB_false_iff _ _ _).mp hbad

/-- The state of the jitter loop after `k` trials, starting from the state
`_generateNoise` builds from the initial `endParams`. -/
def jitterState (cfg : NoiseCfg K) (params0 : List (AnimParams K)) (rnd : Nat → K)
    (k : Nat) : NoiseState K :=
  noiseStates cfg params0.length rnd (initNoise cfg params0) k

/-- The validity-test outcome (`badNoise`) of trial `k` of the jitter
loop. -/
def jitterBad (cfg : NoiseCfg K) (params0 : List (AnimParams K)) (rnd : Nat → K)
    (k : Nat) : Bool :=
  noiseStepBad cfg (k % params0.length) (rnd (3 * k)) (rnd (3 * k + 1))
    (rnd (3 * k + 2)) (jitterState cfg params0 rnd k)

theorem jitterState_succ (cfg : NoiseCfg K) (params0 : List (AnimParams K))
    (rnd : Nat → K) (k : Nat) :
    jitterState cfg params0 rnd (k + 1)
      = noiseStep cfg (k % params0.length) (rnd (3 * k)) (rnd (3 * k + 1))
          (rnd (3 * k + 2)) (jitterState cfg params0 rnd k) := rfl

theorem jitterState_WF (cfg : NoiseCfg K) (params0 : List (AnimParams K))
    (rnd : Nat → K) (k : Nat) :
    ∀ r ∈ (jitterState cfg params0 rnd k).rects, RectWF r := by
  induction k with
  | zero =>
    intro r hr
    simp only [jitterState, noiseStates, initNoise, List.mem_map] at hr
    obtain ⟨p, -, rfl⟩ := hr
    exact rectWF_mkRect _ _
  | succ n ih => exact noiseStep_rects_WF _ _ _ _ _ _ ih

/-- C1.  In the jitter loop: (1) a rejected trial (`badNoise = true`)
changes neither the layout (`endParams`) nor — via the exact inverse
transform — the card rectangles; (2) a trial is committed only when the
validity check passes, and the state after a committed trial satisfies
the coverage property: every cached rectangle-pair intersection point
lying inside the deal area is contained in at least one card rectangle
other than the two that produced it; (3) hence, given a seed state that
satisfies the coverage property, every state that is the seed or the
result of a committed trial satisfies it.  `hcs` states the evenness,
oddness and Pythagorean identities of the cosine/sine oracle. -/
theorem claim_C1 (cfg : NoiseCfg K) (params0 : List (AnimParams K)) (rnd : Nat → K)
    (hcs : CsGood cfg.cs) :
    (∀ k, jitterBad cfg params0 rnd k = true →
        (jitterState cfg params0 rnd (k + 1)).params
            = (jitterState cfg params0 rnd k).params ∧
        (jitterState cfg params0 rnd (k + 1)).rects
            = (jitterState cfg params0 rnd k).rects)
    ∧ (∀ k, jitterBad cfg params0 rnd k = false →
        CoverageState cfg (jitterState cfg params0 rnd (k + 1)))
    ∧ (CoverageState cfg (jitterState cfg params0 rnd 0) →
        ∀ k, (k = 0 ∨ jitterBad cfg params0 rnd (k - 1) = false) →
          CoverageState cfg (jitterState cfg params0 rnd k)) := by
  have hc2 : ∀ k, jitterBad cfg params0 rnd k = false →
      CoverageState cfg (jitterState cfg params0 rnd (k + 1)) := by
    intro k hb
    rw [jitterState_succ]
    exact noiseStep_commit_coverage _ _ _ _ _ _ hb
  refine ⟨?_, hc2, ?_⟩
  · intro k hb
    rw [jitterState_succ]
    exact noiseStep_rollback _ _ _ _ _ _ hcs (jitterState_WF cfg params0 rnd k) hb
  · intro h0 k hk
    rcases hk with rfl | hb
    · exact h0
    · cases k with
      | zero => exact h0
      | succ m => exact hc2 m (by simpa using hb)

set_option maxHeartbeats 8000000 in
/-- Witness for C1: one `4×4` card seeded at `(-1,-1)` (centered on the
`2×2` deal area at the origin), zero jitter amplitudes, constant raw draws
`1/2` (so the trial move is the zero translation and zero rotation): the
seed state satisfies the coverage property (the card's corners lie outside
the deal area and no boundary intersection survives the segment-domain
check), the first trial's validity check passes, and the claim yields
coverage of the state after that committed trial. -/
theorem claim_C1_witness :
    CoverageState ⟨⟨4, 4⟩, ⟨0, 0⟩, ⟨2, 2⟩, 0, 0, fun _ => (1, 0)⟩
      (jitterState (K := ℚ) ⟨⟨4, 4⟩, ⟨0, 0⟩, ⟨2, 2⟩, 0, 0, fun _ => (1, 0)⟩
        [⟨⟨-1, -1⟩, ⟨4, 4⟩, 0⟩] (fun _ => 1/2) 1) := by
  have hcs : CsGood (fun _ : ℚ => ((1 : ℚ), (0 : ℚ))) := by
    intro x
    norm_num
  have hP : CoverageState ⟨⟨4, 4⟩, ⟨0, 0⟩, ⟨2, 2⟩, 0, 0, fun _ => (1, 0)⟩
      (jitterState (K := ℚ) ⟨⟨4, 4⟩, ⟨0, 0⟩, ⟨2, 2⟩, 0, 0, fun _ => (1, 0)⟩
        [⟨⟨-1, -1⟩, ⟨4, 4⟩, 0⟩] (fun _ => 1/2) 0) := by
    norm_num [jitterState, noiseStates, CoverageState, Coverage, initNoise, initRecs,
      recFresh, dealRect, mkRect, Rect.allIntercepts, Rect.allInterceptsDistinct,
      Rect.corners, Rect.containsPoint, Line.intercept, Line.cramer, Line.inDom,
      Line.reset, Line.implicit, Line.epsilon, Vec.add, Vec.sub, Vec.divS, Vec.smul,
      Vec.mult, Vec.neg, Vec.clamp, List.range_succ, List.flatMap, max_def, min_def]
  have hb : jitterBad (K := ℚ) ⟨⟨4, 4⟩, ⟨0, 0⟩, ⟨2, 2⟩, 0, 0, fun _ => (1, 0)⟩
      [⟨⟨-1, -1⟩, ⟨4, 4⟩, 0⟩] (fun _ => 1/2) 0 = false := by
    norm_num [jitterBad, jitterState, noiseStates, noiseStepBad, badNoiseB, movedRects,
      updatedRecs, touches, proposedTrans, initNoise, initRecs, recFresh, dealRect,
      mkRect, Rect.allIntercepts, Rect.allInterceptsDistinct, Rect.corners,
      Rect.containsPoint, Rect.translate, Rect.rotateBy, Line.translate, Line.rotateBy,
      rotP, Vec.rotateBy, Line.intercept, Line.cramer, Line.inDom, Line.reset,
      Line.implicit, Line.epsilon, Vec.add, Vec.sub, Vec.divS, Vec.smul, Vec.mult,
      Vec.neg, Vec.clamp, List.range_succ, List.flatMap, max_def, min_def]
  exact (claim_C1 ⟨⟨4, 4⟩, ⟨0, 0⟩, ⟨2, 2⟩, 0, 0, fun _ => (1, 0)⟩
    [⟨⟨-1, -1⟩, ⟨4, 4⟩, 0⟩] (fun _ => 1/2) hcs).2.2 hP 1 (Or.inr hb)

end KA
